import Mathlib

/-!
Verification development for the scenario-driven mock LLM/agent simulation
engine (mock-agent): the mock API server (server.py), the tool execution
library (tools.py) and the direct-execution scenario runner (agent.py).
Scenario argument values are modelled as strings (scenario files bind string
arguments in all code paths relevant here); random call ids and wall-clock
timestamps are omitted, matching the modulo-timestamps reading of the spec.
-/

namespace MockAgent

/-! ## Scenario events as seen by the mock server (server.py)

A scenario step is a one-key YAML mapping; the key is the event tag and the
value is the payload (`next(iter(current_event.keys()))` in
`_collect_response_parts`). `llmResponse` carries a list of sub-events of the
same one-key shape. -/

abbrev Args := List (String × String)

inductive Payload where
  | pairs (l : List (Nat × String))
  | toolUse (toolName : String) (args : Args)
  | args (a : Args)
  | unitP
deriving DecidableEq, Repr

structure Part where
  tag : String
  payload : Payload
deriving DecidableEq, Repr

inductive SEvent where
  | single (p : Part)
  | llmResponse (parts : List Part)
deriving DecidableEq, Repr

def SEvent.tag : SEvent → String
  | .single p => p.tag
  | .llmResponse _ => "llmResponse"

/-- Event tags skipped by the server because they never generate an API
response (`_collect_response_parts`, first branch). -/
def skipTags : List String :=
  ["complete", "merge", "advanceMs", "userInputs", "userCommands", "userEdits"]

/-- Event tags treated as individual response-generating events
(`_collect_response_parts`, second branch). -/
def responseTags : List String :=
  ["think", "runCmd", "grep", "readFile", "listDir", "find", "sed", "editFile",
   "writeFile", "task", "webFetch", "webSearch", "todoWrite", "notebookEdit",
   "exitPlanMode", "bashOutput", "killShell", "slashCommand", "agentEdits",
   "agentToolUse", "assistant"]

/-- Tool-use tags handled by `_process_response_parts` through the tool
mapping engine. -/
def toolEventTags : List String :=
  ["runCmd", "grep", "readFile", "listDir", "find", "sed", "editFile",
   "writeFile", "task", "webFetch", "webSearch", "todoWrite", "notebookEdit",
   "exitPlanMode", "bashOutput", "killShell", "slashCommand"]

/-- Core of `MockAPIHandler._collect_response_parts`: scan the remaining
timeline, silently consuming skip-listed (and unknown) events, and stop after
the first response-generating event, returning its parts and the number of
events consumed. An `llmResponse` group contributes all of its sub-events at
once. -/
def collectAux : List SEvent → List Part × Nat
  | [] => ([], 0)
  | e :: rest =>
    if e.tag ∈ skipTags then
      let r := collectAux rest
      (r.1, r.2 + 1)
    else if e.tag ∈ responseTags then
      (match e with
       | .single p => [p]
       | .llmResponse ps => ps, 1)
    else if e.tag = "llmResponse" then
      (match e with
       | .llmResponse ps => ps
       | .single _ => [], 1)
    else
      let r := collectAux rest
      (r.1, r.2 + 1)

/-- `_collect_response_parts` on a session whose cursor is `cursor`:
returns the collected parts together with the new cursor. -/
def collectResponseParts (timeline : List SEvent) (cursor : Nat) :
    List Part × Nat :=
  let r := collectAux (timeline.drop cursor)
  (r.1, cursor + r.2)

/-! ## Tool name mapping (MockAPIServer._load_tools_profile / _map_tool_call) -/

structure MapEntry where
  name : String
  direct : Bool
  argsMap : List (String × String)
  templateArgs : List (String × String) := []
deriving DecidableEq, Repr

/-- `self.tools_mapping["codex"]` from `_load_tools_profile`. -/
def codexToolsMapping : List (String × MapEntry) :=
  [("writeFile", ⟨"write_file", true, [("path", "path"), ("content", "text")], []⟩),
   ("readFile", ⟨"read_file", true, [("path", "path")], []⟩),
   ("runCmd", ⟨"run_command", true, [("cmd", "command"), ("cwd", "cwd")], []⟩),
   ("appendFile", ⟨"append_file", true, [("path", "path"), ("content", "text")], []⟩),
   ("replaceInFile", ⟨"replace_in_file", true,
     [("path", "path"), ("old_string", "old"), ("new_string", "new")], []⟩),
   ("write_file", ⟨"write_file", true, [("path", "path"), ("text", "text")], []⟩),
   ("read_file", ⟨"read_file", true, [("path", "path")], []⟩),
   ("run_command", ⟨"run_command", true, [("command", "command"), ("cwd", "cwd")], []⟩),
   ("append_file", ⟨"append_file", true, [("path", "path"), ("text", "text")], []⟩),
   ("replace_in_file", ⟨"replace_in_file", true,
     [("path", "path"), ("old", "old"), ("new", "new")], []⟩)]

/-- `self.tools_mapping["claude"]` from `_load_tools_profile`. -/
def claudeToolsMapping : List (String × MapEntry) :=
  [("runCmd", ⟨"Bash", true,
     [("cmd", "command"), ("cwd", "cwd"), ("timeout", "timeout"),
      ("description", "description"), ("run_in_background", "run_in_background")], []⟩),
   ("grep", ⟨"Grep", true,
     [("pattern", "pattern"), ("path", "path"), ("glob", "glob"),
      ("output_mode", "output_mode"), ("-B", "-B"), ("-A", "-A"), ("-C", "-C"),
      ("-n", "-n"), ("-i", "-i"), ("type", "type"), ("head_limit", "head_limit"),
      ("multiline", "multiline")], []⟩),
   ("readFile", ⟨"Read", true,
     [("path", "file_path"), ("offset", "offset"), ("limit", "limit")], []⟩),
   ("writeFile", ⟨"Write", true, [("path", "file_path"), ("content", "content")], []⟩),
   ("editFile", ⟨"Edit", true,
     [("path", "file_path"), ("old_string", "old_string"),
      ("new_string", "new_string"), ("replace_all", "replace_all")], []⟩),
   ("appendFile", ⟨"Edit", true, [("path", "file_path")], []⟩),
   ("replaceInFile", ⟨"Edit", true,
     [("path", "file_path"), ("old_string", "old_string"),
      ("new_string", "new_string")], []⟩),
   ("listDir", ⟨"Glob", true, [("pattern", "pattern"), ("path", "path")], []⟩),
   ("task", ⟨"Task", true,
     [("description", "description"), ("prompt", "prompt"),
      ("subagent_type", "subagent_type")], []⟩),
   ("webFetch", ⟨"WebFetch", true, [("url", "url"), ("prompt", "prompt")], []⟩),
   ("webSearch", ⟨"WebSearch", true,
     [("query", "query"), ("allowed_domains", "allowed_domains"),
      ("blocked_domains", "blocked_domains")], []⟩),
   ("todoWrite", ⟨"TodoWrite", true, [("todos", "todos")], []⟩),
   ("notebookEdit", ⟨"NotebookEdit", true,
     [("notebook_path", "notebook_path"), ("cell_id", "cell_id"),
      ("new_source", "new_source"), ("cell_type", "cell_type"),
      ("edit_mode", "edit_mode")], []⟩),
   ("exitPlanMode", ⟨"ExitPlanMode", true, [("plan", "plan")], []⟩),
   ("bashOutput", ⟨"BashOutput", true, [("bash_id", "bash_id"), ("filter", "filter")], []⟩),
   ("killShell", ⟨"KillShell", true, [("shell_id", "shell_id")], []⟩),
   ("slashCommand", ⟨"SlashCommand", true, [("command", "command")], []⟩),
   ("Write", ⟨"Write", true, [("path", "file_path"), ("text", "content")], []⟩),
   ("Edit", ⟨"Edit", true,
     [("path", "file_path"), ("old_string", "old_string"),
      ("new_string", "new_string")], []⟩),
   ("write_file", ⟨"Write", true, [("path", "file_path"), ("text", "content")], []⟩),
   ("read_file", ⟨"Read", true, [("path", "file_path")], []⟩),
   ("append_file", ⟨"Edit", true, [("path", "file_path")], []⟩),
   ("replace_in_file", ⟨"Edit", true,
     [("path", "file_path"), ("old_string", "old"), ("new_string", "new")], []⟩),
   ("run_command", ⟨"Bash", true, [("command", "command"), ("cwd", "cwd")], []⟩)]

/-- `self.tools_mapping.get(profile, dict())`: unknown profiles (and the
empty gemini/opencode/qwen/cursor-cli/goose tables) give the empty mapping. -/
def toolsMapping (profile : String) : List (String × MapEntry) :=
  if profile = "codex" then codexToolsMapping
  else if profile = "claude" then claudeToolsMapping
  else []

/-- `self.valid_tools["codex"]`. -/
def codexValidTools : List String :=
  ["write_file", "read_file", "run_command", "append_file", "replace_in_file"]

/-- `self.valid_tools["claude"]`. -/
def claudeValidTools : List String :=
  ["Bash", "Grep", "Read", "Glob", "Edit", "Write", "Task", "WebFetch",
   "WebSearch", "TodoWrite", "NotebookEdit", "ExitPlanMode", "BashOutput",
   "KillShell", "SlashCommand"]

/-- `self.valid_tools.get(profile, set())`. -/
def validTools (profile : String) : List String :=
  if profile = "codex" then codexValidTools
  else if profile = "claude" then claudeValidTools
  else []

def lbrace : String := "\x7b"

/-- Model of `value.format(**scenario_args)` for string templates: substitute
every known placeholder; if an unresolved placeholder remains, the KeyError
branch keeps the original template (`none` here signals that branch). -/
def pyFormat (tmpl : String) (args : Args) : Option String :=
  let s := args.foldl (fun acc kv => acc.replace (lbrace ++ kv.1 ++ "\x7d") kv.2) tmpl
  if s.contains '\x7b' then none else some s

/-- `' '.join(str(v) for v in scenario_args.values())`. -/
def joinVals (a : Args) : String :=
  String.intercalate " " (a.map Prod.snd)

/-- Direct-mapping argument remap of `_map_tool_call`: rekey each scenario
argument present in `args_map`, then pass through every unmapped key. -/
def directMapArgs (argsMap : List (String × String)) (scenarioArgs : Args) : Args :=
  (argsMap.filterMap fun kv => (List.lookup kv.1 scenarioArgs).map fun v => (kv.2, v))
    ++ scenarioArgs.filter fun kv => (List.lookup kv.1 argsMap).isNone

/-- Template-mapping argument build of `_map_tool_call`: substitute scenario
args into each template value (falling back to the raw template on a missing
key), then merge unconsumed scenario args. -/
def templateMapArgs (templateArgs : List (String × String)) (scenarioArgs : Args) : Args :=
  (templateArgs.map fun kv =>
    (kv.1, match pyFormat kv.2 scenarioArgs with
           | some s => s
           | none => kv.2))
    ++ scenarioArgs.filter fun kv => (List.lookup kv.1 templateArgs).isNone

structure ToolCallSpec where
  name : String
  args : Args
deriving DecidableEq, Repr

/-- `MockAPIServer._map_tool_call`: map a scenario tool event to the active
profile own tool schema; event types absent from the table fall back to a
generic `run_terminal_cmd` shell command. -/
def mapToolCall (profile evType : String) (scenarioArgs : Args) : ToolCallSpec :=
  match List.lookup evType (toolsMapping profile) with
  | none =>
    ⟨"run_terminal_cmd",
     [("command", evType ++ " " ++ joinVals scenarioArgs), ("cwd", ".")]⟩
  | some m =>
    if m.direct then ⟨m.name, directMapArgs m.argsMap scenarioArgs⟩
    else ⟨m.name, templateMapArgs m.templateArgs scenarioArgs⟩

/-! ## Protocol coalescer (MockAPIHandler._process_response_parts) -/

/-- One step of `_process_response_parts`: accumulate assistant text and tool
calls. The `think` branch does nothing for either provider (the anthropic
branch of the source is an explicit `pass`). -/
def processPart (profile provider : String) (acc : String × List ToolCallSpec)
    (part : Part) : String × List ToolCallSpec :=
  if part.tag = "think" then
    if provider = "anthropic" then acc else acc
  else if part.tag = "assistant" then
    match part.payload with
    | .pairs l => (acc.1 ++ String.join (l.map Prod.snd), acc.2)
    | _ => acc
  else if part.tag ∈ toolEventTags then
    let a := match part.payload with
             | .args a => a
             | _ => []
    (acc.1, acc.2 ++ [mapToolCall profile part.tag a])
  else if part.tag = "agentEdits" then
    (acc.1, acc.2 ++ [⟨"edit_file", match part.payload with
                                    | .args a => a
                                    | _ => []⟩])
  else if part.tag = "agentToolUse" then
    match part.payload with
    | .toolUse n a => (acc.1, acc.2 ++ [mapToolCall profile n a])
    | _ => acc
  else acc

def processResponseParts (profile : String) (parts : List Part)
    (provider : String) : String × List ToolCallSpec :=
  parts.foldl (processPart profile provider) ("", [])

structure OpenAIMessage where
  role : String
  content : String
  toolCalls : Option (List ToolCallSpec)
deriving DecidableEq, Repr

/-- Assembly of `choices[0].message` in `_handle_openai_chat_completions`:
the `tool_calls` key is deleted when the list is empty. -/
def openaiMessage (profile : String) (parts : List Part) : OpenAIMessage :=
  let r := processResponseParts profile parts "openai"
  ⟨"assistant", r.1, if r.2.isEmpty then none else some r.2⟩

inductive ABlock where
  | thinking (s : String)
  | text (s : String)
  | toolUse (name : String) (input : Args)
deriving DecidableEq, Repr

def ABlock.isThinking : ABlock → Bool
  | .thinking _ => true
  | _ => false

/-- Assembly of the `content` array in `_handle_anthropic_messages`: a text
block when the assistant text is non-empty, then one `tool_use` block per
resolved tool call. -/
def anthropicContent (profile : String) (parts : List Part) : List ABlock :=
  let r := processResponseParts profile parts "anthropic"
  (if r.1 = "" then [] else [.text r.1])
    ++ r.2.map fun t => .toolUse t.name t.args

/-! ## Session registry (MockAPIServer._get_session and the request cycle) -/

abbrev Sessions := List (String × Nat)

/-- `_get_session`: return the session for the key, creating one bound to
cursor 0 on first observation. -/
def getSession (sessions : Sessions) (apiKey : String) : Sessions × Nat :=
  match List.lookup apiKey sessions with
  | some c => (sessions, c)
  | none => ((apiKey, 0) :: sessions, 0)

def setCursor (sessions : Sessions) (apiKey : String) (c : Nat) : Sessions :=
  sessions.map fun kv => if kv.1 = apiKey then (kv.1, c) else kv

/-- One inbound API request for `apiKey`: look up or create the session,
collect the response parts at its cursor, and advance the cursor past the
consumed events. -/
def handleRequest (timeline : List SEvent) (sessions : Sessions)
    (apiKey : String) : Sessions × List Part :=
  let s := getSession sessions apiKey
  let r := collectAux (timeline.drop s.2)
  (setCursor s.1 apiKey (s.2 + r.2), r.1)

/-! ## Drift capture and tool validation (server.py) -/

/-- A file system as an association list from path components to content. -/
abbrev FS := List (List String × String)

def fsFind (fs : FS) (p : List String) : Option String :=
  List.lookup p fs

def fsInsert (fs : FS) (p : List String) (v : String) : FS :=
  (p, v) :: fs.filter fun kv => kv.1 ≠ p

/-- `MockAPIServer._save_agent_request`: write the raw request body to
`agent-requests/(profile)/(agent_version)/request.json`, opening the file in
write mode (overwriting any previous capture). -/
def saveAgentRequest (fs : FS) (profile version body : String) : FS :=
  fsInsert fs ["agent-requests", profile, version, "request.json"] body

/-- `MockAPIServer._validate_tools` on the names extracted from inbound tool
calls (`none` models a call without a resolvable name, which is skipped).
For an unknown name the raw body is saved (when non-empty) before the strict
mode error is raised; in non-strict mode validation continues. Returns the
resulting capture file system and the raised error, if any. -/
def validateTools (strict : Bool) (profile version : String)
    (calls : List (Option String)) (body : String) (fs : FS) :
    FS × Option String :=
  match calls with
  | [] => (fs, none)
  | c :: rest =>
    match c with
    | none => validateTools strict profile version rest body fs
    | some name =>
      if name ∈ validTools profile then
        validateTools strict profile version rest body fs
      else
        let fs1 := if body ≠ "" then saveAgentRequest fs profile version body else fs
        if strict then
          (fs1, some ("Unknown tool " ++ name ++ " for profile " ++ profile))
        else
          validateTools strict profile version rest body fs1

/-- `MockAPIServer._validate_tool_definitions` on the names of the tool
definitions of an inbound request. In strict mode an unknown name raises
immediately, without saving; only the non-strict branch captures the request
body (unconditionally). -/
def validateToolDefinitions (strict : Bool) (profile version : String)
    (defs : List (Option String)) (body : String) (fs : FS) :
    FS × Option String :=
  match defs with
  | [] => (fs, none)
  | d :: rest =>
    match d with
    | none => validateToolDefinitions strict profile version rest body fs
    | some name =>
      if name ∈ validTools profile then
        validateToolDefinitions strict profile version rest body fs
      else if strict then
        (fs, some ("Strict tools validation failed: " ++ name))
      else
        validateToolDefinitions strict profile version rest body
          (saveAgentRequest fs profile version body)

/-! ## Paths and the tool execution library (tools.py)

Posix paths are modelled structurally: an absoluteness flag plus the list of
components obtained by splitting on the separator. `os.path` string
operations are mirrored at this level; rendering back to a character list is
used where the source compares path strings. -/

structure PyPath where
  absolute : Bool
  comps : List String
deriving DecidableEq, Repr

/-- `os.path.join(a, b)`: an absolute second operand discards the first. -/
def joinP (a b : PyPath) : PyPath :=
  if b.absolute then b else ⟨a.absolute, a.comps ++ b.comps⟩

/-- One step of the `posixpath.normpath` component scan. -/
def normStep (absolute : Bool) (acc : List String) (comp : String) : List String :=
  if comp = "" ∨ comp = "." then acc
  else if comp ≠ ".." ∨ (absolute = false ∧ acc = [])
      ∨ (acc ≠ [] ∧ acc.getLast? = some "..") then acc ++ [comp]
  else acc.dropLast

def normComps (absolute : Bool) (comps : List String) : List String :=
  comps.foldl (normStep absolute) []

/-- `os.path.normpath`. -/
def normpath (p : PyPath) : PyPath :=
  ⟨p.absolute, normComps p.absolute p.comps⟩

/-- `os.path.abspath(p)` relative to the process working directory. -/
def abspathP (cwd p : PyPath) : PyPath :=
  normpath (joinP cwd p)

/-- Component-wise longest common stem, the core of `os.path.commonpath`. -/
def commonStem : List String → List String → List String
  | a :: as, b :: bs => if a = b then a :: commonStem as bs else []
  | _, _ => []

/-- `'/'.join(comps)` as a character list. -/
def joinSlash : List String → List Char
  | [] => []
  | [c] => c.data
  | c :: c2 :: rest => c.data ++ '/' :: joinSlash (c2 :: rest)

/-- The characters of the string form of a path. -/
def renderP (p : PyPath) : List Char :=
  if p.absolute then '/' :: joinSlash p.comps else joinSlash p.comps

/-- `s.startswith(pre)` on character lists. -/
def pyStartsWith (s pre : List Char) : Bool :=
  List.isPrefixOf pre s

inductive PyErr where
  | toolError (msg : String)
  | valueError (msg : String)
  | ioError (msg : String)
deriving DecidableEq, Repr

def PyErr.isToolError : PyErr → Bool
  | .toolError _ => true
  | _ => false

/-- `tools._safe_join`: normalize the joined path, absolutize the root, and
require `commonpath([root, new_path]).startswith(root)`; on escape raise
`ToolError`. `commonpath` on a mixed absolute/relative pair raises
`ValueError`, modelled by the separate error constructor. -/
def safeJoin (cwd root path : PyPath) : Except PyErr PyPath :=
  let newPath := normpath (joinP root path)
  let root1 := abspathP cwd root
  if root1.absolute ≠ newPath.absolute then
    .error (.valueError "Cannot mix absolute and relative paths")
  else
    let cp : PyPath := ⟨root1.absolute, commonStem root1.comps newPath.comps⟩
    if pyStartsWith (renderP cp) (renderP root1) then .ok newPath
    else .error (.toolError ("Unsafe path: " ++ String.mk (renderP path)))

/-- `tools.read_file`: safe-join, then read; missing file is an uncaught
OS-level error, not a `ToolError`. -/
def read_file (fs : FS) (cwd workspace path : PyPath) :
    Except PyErr (String × String) :=
  match safeJoin cwd workspace path with
  | .error e => .error e
  | .ok ab =>
    match fsFind fs ab.comps with
    | some content => .ok (String.mk (renderP path), content)
    | none => .error (.ioError "No such file")

/-- `tools.write_file` (directory creation is implicit in the file-map
model). -/
def write_file (fs : FS) (cwd workspace path : PyPath) (text : String) :
    Except PyErr (FS × Nat) :=
  match safeJoin cwd workspace path with
  | .error e => .error e
  | .ok ab => .ok (fsInsert fs ab.comps text, text.length)

/-- `tools.writeFile` (scenario-format name; same write-mode open). -/
def writeFile (fs : FS) (cwd workspace path : PyPath) (text : String) :
    Except PyErr (FS × Nat) :=
  match safeJoin cwd workspace path with
  | .error e => .error e
  | .ok ab => .ok (fsInsert fs ab.comps text, text.length)

/-- `tools.append_file`: safe-join, then open in append mode (a missing file
is created empty by `open(..., "a")`). -/
def append_file (fs : FS) (cwd workspace path : PyPath) (text : String) :
    Except PyErr (FS × Nat) :=
  match safeJoin cwd workspace path with
  | .error e => .error e
  | .ok ab => .ok (fsInsert fs ab.comps ((fsFind fs ab.comps).getD "" ++ text), text.length)

/-- Replace the first occurrence of `old` inside `s` (CPython
`str.replace(old, new, 1)` semantics for a non-empty pattern). -/
def replaceFirst (s old new : String) : String :=
  match s.splitOn old with
  | [] => s
  | [_] => s
  | a :: b :: rest => a ++ new ++ String.intercalate old (b :: rest)

/-- `tools.editFile`: exact string replacement; `replace_all` substitutes
every (escaped) occurrence, otherwise only the first. -/
def editFile (fs : FS) (cwd workspace path : PyPath)
    (old_string new_string : String) (replace_all : Bool) :
    Except PyErr (FS × Nat) :=
  match safeJoin cwd workspace path with
  | .error e => .error e
  | .ok ab =>
    match fsFind fs ab.comps with
    | none => .error (.ioError "No such file")
    | some data =>
      let newData := if replace_all then data.replace old_string new_string
                     else replaceFirst data old_string new_string
      .ok (fsInsert fs ab.comps newData, 1)

/-- `tools.list_dir`: safe-join, then list the immediate children recorded in
the file map (entry metadata and ordering are not modelled). -/
def list_dir (fs : FS) (cwd workspace path : PyPath) :
    Except PyErr (List String) :=
  match safeJoin cwd workspace path with
  | .error e => .error e
  | .ok ab =>
    .ok (fs.filterMap fun kv =>
      if ab.comps <+: kv.1 ∧ ab.comps.length < kv.1.length then
        kv.1.get? ab.comps.length
      else none)

/-- `tools.sed`: safe-join first, then parse the `s/pat/repl/flags`
expression; the regex substitution itself is external (`re.subn`) and is
passed in as `subn`. Only the `inplace` variant writes. -/
def sed (subn : String → String → Nat → String → String) (fs : FS)
    (cwd workspace path : PyPath) (expr : String) (inplace : Bool) :
    Except PyErr (FS × Nat) :=
  match safeJoin cwd workspace path with
  | .error e => .error e
  | .ok ab =>
  if ¬ expr.startsWith "s/" then
    .error (.toolError ("Unsupported sed expression: " ++ expr))
  else
    let parts := expr.splitOn "/"
    if parts.length < 4 then
      .error (.toolError ("Invalid sed expression: " ++ expr))
    else
      let pat := parts.getD 1 ""
      let repl := parts.getD 2 ""
      let flags := parts.getD 3 ""
      let count := if flags.contains 'g' then 0 else 1
      match fsFind fs ab.comps with
      | none => .error (.ioError "No such file")
      | some data =>
        let newData := subn pat repl count data
        if inplace then .ok (fsInsert fs ab.comps newData, 1)
        else .ok (fs, 1)

/-- The cwd resolution step of `tools.runCmd`:
`cwd_abs = _safe_join(workspace, cwd)`. The spawned command itself is an
external process and is not modelled. -/
def runCmdResolveCwd (cwd workspace cmdCwd : PyPath) : Except PyErr PyPath :=
  safeJoin cwd workspace cmdCwd

/-! ## The direct-execution scenario runner (agent.py)

Embedding of the timeline fragment the flatten-sort equivalence quantifies
over: think / assistant / tool events (grouped inside `llmResponse` or in
legacy single-event form, plus tool-specific steps such as a bare `runCmd`
step). Pacing (`time.sleep`) and console output are dropped; the recorded
transcript and the tool invocations are kept. -/

structure ToolUse where
  toolName : String
  args : Args
  progress : List (Nat × String) := []
  status : String := "ok"
deriving DecidableEq, Repr

inductive RElem where
  | think (l : List (Nat × String))
  | assistant (l : List (Nat × String))
  | agentToolUse (tu : ToolUse)
  | agentEdits (path : String) (added removed : Nat)
deriving DecidableEq, Repr

inductive RStep where
  | llmResponse (elems : List RElem)
  | think (l : List (Nat × String))
  | assistant (l : List (Nat × String))
  | agentToolUse (tu : ToolUse)
  | agentEdits (path : String) (added removed : Nat)
  | toolSpecific (name : String) (args : Args)
deriving DecidableEq, Repr

/-- Codex rollout recorder entries (RolloutRecorder), with random ids and
timestamps omitted. -/
inductive Rec where
  | turnContext
  | reasoning (summary : String)
  | agentMessage (msg : String)
  | message (role : String) (text : String)
  | functionCall (name : String) (args : Args)
deriving DecidableEq, Repr

inductive FEvent where
  | think (ms : Nat) (text : String)
  | assistant (ms : Nat) (text : String)
  | agentToolUse (tu : ToolUse)
  | agentEdits (path : String) (added removed : Nat)
deriving DecidableEq, Repr

structure TEvent where
  time : Nat
  ev : FEvent
deriving DecidableEq, Repr

/-- Flattening of `_run_scenario_fast_mode`: walk the timeline accumulating
`current_time`; `think`/`assistant` pairs advance time after each sub-event,
tool and edit events are stamped without advancing. -/
def flattenStep (t : Nat) : RStep → List TEvent × Nat
  | .llmResponse elems =>
    elems.foldl (fun acc el =>
      match el with
      | .think l =>
        l.foldl (fun acc2 p =>
          (acc2.1 ++ [⟨acc2.2, .think p.1 p.2⟩], acc2.2 + p.1)) acc
      | .assistant l =>
        l.foldl (fun acc2 p =>
          (acc2.1 ++ [⟨acc2.2, .assistant p.1 p.2⟩], acc2.2 + p.1)) acc
      | .agentToolUse tu => (acc.1 ++ [⟨acc.2, .agentToolUse tu⟩], acc.2)
      | .agentEdits p a r => (acc.1 ++ [⟨acc.2, .agentEdits p a r⟩], acc.2))
      (([] : List TEvent), t)
  | .think l =>
    l.foldl (fun acc p =>
      (acc.1 ++ [⟨acc.2, .think p.1 p.2⟩], acc.2 + p.1)) (([] : List TEvent), t)
  | .assistant l =>
    l.foldl (fun acc p =>
      (acc.1 ++ [⟨acc.2, .assistant p.1 p.2⟩], acc.2 + p.1)) (([] : List TEvent), t)
  | .agentToolUse tu => ([⟨t, .agentToolUse tu⟩], t)
  | .agentEdits p a r => ([⟨t, .agentEdits p a r⟩], t)
  | .toolSpecific name args => ([⟨t, .agentToolUse ⟨name, args, [], "ok"⟩⟩], t)

def flattenTimeline (steps : List RStep) : List TEvent :=
  (steps.foldl (fun acc s =>
    let r := flattenStep acc.2 s
    (acc.1 ++ r.1, r.2)) (([] : List TEvent), 0)).1

/-- Stable insertion of an event into a time-sorted list (the event goes
after all existing events with a smaller-or-equal stamp). -/
def insertByTime (e : TEvent) : List TEvent → List TEvent
  | [] => [e]
  | x :: xs => if x.time ≤ e.time then x :: insertByTime e xs else e :: x :: xs

/-- Stable sort by `time`, the model of `timeline_events.sort(key=...)`. -/
def sortByTime (l : List TEvent) : List TEvent :=
  l.foldl (fun acc e => insertByTime e acc) []

/-- Separator split used to read a path string into components. -/
def splitSlashAux : List Char → List Char → List String
  | [], acc => [String.mk acc.reverse]
  | c :: rest, acc =>
    if c = '/' then String.mk acc.reverse :: splitSlashAux rest []
    else splitSlashAux rest (c :: acc)

/-- Read a path string structurally (empty components are dropped; the
normalization pass of `safeJoin` drops them in the source as well). -/
def parsePath (s : String) : PyPath :=
  ⟨s.data.head? == some '/', (splitSlashAux s.data []).filter (· ≠ "")⟩

def pyArgGet (args : Args) (k : String) : Except PyErr String :=
  match List.lookup k args with
  | some v => .ok v
  | none => .error (.valueError ("missing required argument: " ++ k))

/-- A string argument read as a Python boolean (scenario args are strings in
this model; only the literal true spellings are truthy here). -/
def argBool (args : Args) (k : String) : Bool :=
  match List.lookup k args with
  | some v => v = "true" ∨ v = "True"
  | none => false

/-- `tools.call_tool` dispatch through `REGISTRY`. The regex engine behind
`re.subn` is external and passed in as `subn`; tools whose effects live
outside the workspace file map (subprocess spawns, searches) leave the map
unchanged. A name missing from the registry raises `ToolError`. -/
def callTool (subn : String → String → Nat → String → String)
    (cwd workspace : PyPath) (name : String) (args : Args) (fs : FS) :
    Except PyErr FS :=
  if name = "readFile" ∨ name = "read_file" then do
    let p ← pyArgGet args "path"
    let _ ← read_file fs cwd workspace (parsePath p)
    .ok fs
  else if name = "writeFile" then do
    let p ← pyArgGet args "path"
    let t ← pyArgGet args "text"
    let r ← writeFile fs cwd workspace (parsePath p) t
    .ok r.1
  else if name = "write_file" then do
    let p ← pyArgGet args "path"
    let t ← pyArgGet args "text"
    let r ← write_file fs cwd workspace (parsePath p) t
    .ok r.1
  else if name = "append_file" then do
    let p ← pyArgGet args "path"
    let t ← pyArgGet args "text"
    let r ← append_file fs cwd workspace (parsePath p) t
    .ok r.1
  else if name = "editFile" then do
    let p ← pyArgGet args "path"
    let old ← pyArgGet args "old_string"
    let new ← pyArgGet args "new_string"
    let r ← editFile fs cwd workspace (parsePath p) old new (argBool args "replace_all")
    .ok r.1
  else if name = "replace_text" then do
    let p ← pyArgGet args "path"
    let pat ← pyArgGet args "pattern"
    let repl ← pyArgGet args "replacement"
    let ab ← safeJoin cwd workspace (parsePath p)
    match fsFind fs ab.comps with
    | none => .error (.ioError "No such file")
    | some data => .ok (fsInsert fs ab.comps (subn pat repl 0 data))
  else if name = "list_dir" then do
    let p := (List.lookup "path" args).getD "."
    let _ ← list_dir fs cwd workspace (parsePath p)
    .ok fs
  else if name = "sed" then do
    let e ← pyArgGet args "expression"
    let p ← pyArgGet args "path"
    let r ← sed subn fs cwd workspace (parsePath p) e (argBool args "inplace")
    .ok r.1
  else if name = "runCmd" then do
    let c ← pyArgGet args "command"
    let _ := c
    let _ ← runCmdResolveCwd cwd workspace (parsePath ((List.lookup "cwd" args).getD "."))
    .ok fs
  else if name = "grep" ∨ name = "find" then
    .ok fs
  else if name = "task" ∨ name = "todoWrite" ∨ name = "exitPlanMode"
      ∨ name = "slashCommand" then
    .ok fs
  else if name = "webFetch" then
    .error (.toolError "webFetch tool requires HTTP client implementation")
  else if name = "webSearch" then
    .error (.toolError "webSearch tool requires search API implementation")
  else if name = "notebookEdit" then
    .error (.toolError "notebookEdit tool requires Jupyter notebook parsing implementation")
  else if name = "bashOutput" then
    .error (.toolError "bashOutput tool requires bash session management")
  else if name = "killShell" then
    .error (.toolError "killShell tool requires process management")
  else
    .error (.toolError ("Unknown tool: " ++ name))

/-- The shared tool execution block of both runner modes: record the function
call, execute it, and record the outcome; a `ToolError` is caught and
recorded, any other exception propagates. -/
def execToolUse (subn : String → String → Nat → String → String)
    (cwd ws : PyPath) (tu : ToolUse) (fs : FS) :
    Except PyErr (List Rec × FS) :=
  match callTool subn cwd ws tu.toolName tu.args fs with
  | .ok fs1 =>
    .ok ([.functionCall tu.toolName tu.args,
          .agentMessage ("tool " ++ tu.toolName ++ " " ++ tu.status)], fs1)
  | .error (.toolError m) =>
    .ok ([.functionCall tu.toolName tu.args,
          .agentMessage ("tool " ++ tu.toolName ++ " error: " ++ m)], fs)
  | .error e => .error e

def runEvents (f : α → FS → Except PyErr (List Rec × FS)) :
    List α → FS → Except PyErr (List Rec × FS)
  | [], fs => .ok ([], fs)
  | x :: xs, fs => do
    let r ← f x fs
    let rest ← runEvents f xs r.2
    .ok (r.1 ++ rest.1, rest.2)

/-- Execution of one flattened event in `_run_scenario_fast_mode`
(codex format). -/
def fastExecEvent (subn : String → String → Nat → String → String)
    (cwd ws : PyPath) (e : TEvent) (fs : FS) :
    Except PyErr (List Rec × FS) :=
  match e.ev with
  | .think _ t => .ok ([.reasoning t, .agentMessage t], fs)
  | .assistant _ t => .ok ([.message "assistant" t], fs)
  | .agentToolUse tu => execToolUse subn cwd ws tu fs
  | .agentEdits _ _ _ => .ok ([], fs)

/-- `_run_scenario_fast_mode` with `format="codex"`: flatten, stable-sort by
time, then execute every event with no delays. -/
def runFastCodex (subn : String → String → Nat → String → String)
    (cwd ws : PyPath) (steps : List RStep) (fs : FS) :
    Except PyErr (List Rec × FS) := do
  let r ← runEvents (fastExecEvent subn cwd ws)
    (sortByTime (flattenTimeline steps)) fs
  .ok (Rec.turnContext :: r.1, r.2)

/-- Execution of one `llmResponse` sub-element in `_run_scenario_codex`;
every `think`/`assistant` pair is recorded inside the loop. -/
def realtimeExecElem (subn : String → String → Nat → String → String)
    (cwd ws : PyPath) (el : RElem) (fs : FS) :
    Except PyErr (List Rec × FS) :=
  match el with
  | .think l => .ok (l.flatMap fun p => [.reasoning p.2, .agentMessage p.2], fs)
  | .assistant l => .ok (l.map fun p => .message "assistant" p.2, fs)
  | .agentToolUse tu => execToolUse subn cwd ws tu fs
  | .agentEdits _ _ _ => .ok ([], fs)

/-- Execution of one timeline step in `_run_scenario_codex` (realtime mode).
A legacy `assistant` step prints every pair but calls `record_message` only
once, after the loop, with the loop variable still bound to the last pair; a
tool-specific step (for example a bare `runCmd` step) matches no branch and
falls through to the unknown-step warning. -/
def realtimeExecStep (subn : String → String → Nat → String → String)
    (cwd ws : PyPath) (s : RStep) (fs : FS) :
    Except PyErr (List Rec × FS) :=
  match s with
  | .llmResponse elems => runEvents (realtimeExecElem subn cwd ws) elems fs
  | .think l => .ok (l.flatMap fun p => [.reasoning p.2, .agentMessage p.2], fs)
  | .assistant l =>
    .ok (match l.getLast? with
         | some p => [.message "assistant" p.2]
         | none => [], fs)
  | .agentToolUse tu => execToolUse subn cwd ws tu fs
  | .agentEdits _ _ _ => .ok ([], fs)
  | .toolSpecific _ _ => .ok ([], fs)

/-- `_run_scenario_codex`: iterate the timeline in document order, blocking
on every scripted delay (the delays only pace the run and are dropped from
the model). -/
def runRealtimeCodex (subn : String → String → Nat → String → String)
    (cwd ws : PyPath) (steps : List RStep) (fs : FS) :
    Except PyErr (List Rec × FS) := do
  let r ← runEvents (realtimeExecStep subn cwd ws) steps fs
  .ok (Rec.turnContext :: r.1, r.2)

/-- The recorded transcript of a runner outcome (none when the run crashed
with an uncaught exception). -/
def recsOf (r : Except PyErr (List Rec × FS)) : Option (List Rec) :=
  match r with
  | .ok p => some p.1
  | .error _ => none

/-- The final workspace file map of a runner outcome. -/
def fsOf (r : Except PyErr (List Rec × FS)) : Option FS :=
  match r with
  | .ok p => some p.2
  | .error _ => none

/-- An event is response-generating when the collect loop stops at it. -/
def ProducesResponse (e : SEvent) : Prop :=
  e.tag ∈ responseTags ∨ e.tag = "llmResponse"

instance : DecidablePred ProducesResponse := fun e => by
  unfold ProducesResponse
  infer_instance

/-- The parts contributed by a response-generating event: a one-element group
for a legacy event, the whole sub-event list for an `llmResponse` group. -/
def partsOf (e : SEvent) : List Part :=
  match e with
  | .single p => [p]
  | .llmResponse ps => ps

/-- The parts taken by the dedicated `llmResponse` branch of the collect loop
(which yields nothing for a single-key event). -/
def partsOfLlm (e : SEvent) : List Part :=
  match e with
  | .single _ => []
  | .llmResponse ps => ps

/-- Well-formedness of the modelled events: a single-key legacy event does
not masquerade under the reserved `llmResponse` tag. -/
def EventWF (e : SEvent) : Prop :=
  match e with
  | .single p => p.tag ≠ "llmResponse"
  | .llmResponse _ => True

instance : DecidablePred EventWF := fun e => by
  unfold EventWF
  cases e <;> infer_instance

/-- Path components free of separator artifacts and dot navigation (the shape
`normComps` guarantees for absolute paths). -/
def NoSpecial (l : List String) : Prop :=
  ∀ c ∈ l, c ≠ "" ∧ c ≠ "." ∧ c ≠ ".."

/-! ## Theorems -/

/-- C1: fast mode and realtime mode are claimed referentially equivalent on
think/assistant/tool scenarios, but a legacy `assistant` step with several
timed texts is recorded in full by fast mode and only by its last text by
realtime mode (`record_message` sits after the pair loop in
`_run_scenario_codex`), so the recorded transcripts differ. -/
theorem C1_legacy_assistant_transcript_mismatch :
  recsOf (runFastCodex (fun _ _ _ d => d) ⟨true, []⟩ ⟨true, ["ws"]⟩
      [RStep.assistant [(0, "a"), (0, "b")]] []) =
    some [Rec.turnContext, .message "assistant" "a", .message "assistant" "b"] ∧
  recsOf (runRealtimeCodex (fun _ _ _ d => d) ⟨true, []⟩ ⟨true, ["ws"]⟩
      [RStep.assistant [(0, "a"), (0, "b")]] []) =
    some [Rec.turnContext, .message "assistant" "b"] ∧
  recsOf (runFastCodex (fun _ _ _ d => d) ⟨true, []⟩ ⟨true, ["ws"]⟩
      [RStep.assistant [(0, "a"), (0, "b")]] []) ≠
    recsOf (runRealtimeCodex (fun _ _ _ d => d) ⟨true, []⟩ ⟨true, ["ws"]⟩
      [RStep.assistant [(0, "a"), (0, "b")]] []) := by
  refine ⟨rfl, rfl, ?_⟩
  decide

/-- C2: once the timeline cursor has passed the last event, a further request
yields an empty parts list, so the server answers with empty assistant
content (and an empty anthropic content array), not with the last-seen
assistant message that both the spec and the in-file ALGORITHM comment
promise. -/
theorem C2_exhausted_timeline_returns_empty :
  (openaiMessage "codex"
      (handleRequest [.single ⟨"assistant", .pairs [(0, "hi")]⟩] [] "key").2).content
    = "hi" ∧
  (openaiMessage "codex"
      (handleRequest [.single ⟨"assistant", .pairs [(0, "hi")]⟩]
        (handleRequest [.single ⟨"assistant", .pairs [(0, "hi")]⟩] [] "key").1
        "key").2).content = "" ∧
  anthropicContent "codex"
      (handleRequest [.single ⟨"assistant", .pairs [(0, "hi")]⟩]
        (handleRequest [.single ⟨"assistant", .pairs [(0, "hi")]⟩] [] "key").1
        "key").2 = [] := by
  decide

/-- C4 counterexample: an anthropic-shaped response produced from a group
containing a `think` sub-event carries no `thinking` block at all (the
coalescer discards thinking for both providers), refuting the claimed
always-present ordered `thinking` block. -/
theorem C4_counterexample :
  ([⟨"think", .pairs [(0, "hmm")]⟩,
    (⟨"assistant", .pairs [(0, "hi")]⟩ : Part)].any fun p => p.tag = "think") = true ∧
  anthropicContent "claude"
      [⟨"think", .pairs [(0, "hmm")]⟩, ⟨"assistant", .pairs [(0, "hi")]⟩]
    = [.text "hi"] ∧
  ((anthropicContent "claude"
      [⟨"think", .pairs [(0, "hmm")]⟩, ⟨"assistant", .pairs [(0, "hi")]⟩]).any
    ABlock.isThinking) = false := by
  decide

/-- C5 counterexample: a parts list containing an `error` sub-event does not
short-circuit into an assistant-text error message — the coalescer has no
`error` branch, so the error is dropped and a later tool event still produces
a tool call while the assistant text stays empty. -/
theorem C5_counterexample :
  processResponseParts "codex"
      [⟨"error", .args [("errorType", "rate_limit"), ("message", "boom")]⟩,
       ⟨"runCmd", .args [("cmd", "ls")]⟩] "openai"
    = ("", [⟨"run_command", [("command", "ls")]⟩]) ∧
  (processResponseParts "codex"
      [⟨"error", .args [("errorType", "rate_limit"), ("message", "boom")]⟩,
       ⟨"runCmd", .args [("cmd", "ls")]⟩] "openai").2 ≠ [] := by
  decide

/-- C8 counterexample: in strict mode an unknown tool definition makes
`_validate_tool_definitions` raise before any capture, so the request body is
not persisted, refuting the in-either-mode persistence claim. -/
theorem C8_counterexample :
  validateToolDefinitions true "claude" "2.0.5" [some "FooBar"] "BODY" [] =
    ([], some "Strict tools validation failed: FooBar") := by
  decide

/-- C9: saving the drift-capture file twice for the same profile and agent
version overwrites the single `request.json` capture — the composite state
equals the state after the second save alone. -/
theorem C9_drift_capture_overwrites (fs : FS) (profile version b1 b2 : String) :
  saveAgentRequest (saveAgentRequest fs profile version b1) profile version b2 =
    saveAgentRequest fs profile version b2 := by
  unfold saveAgentRequest fsInsert
  simp [List.filter_filter]

theorem processPart_think (profile provider : String)
    (acc : String × List ToolCallSpec) (part : Part) (h : part.tag = "think") :
    processPart profile provider acc part = acc := by
  simp [processPart, h]

theorem processPart_error (profile provider : String)
    (acc : String × List ToolCallSpec) (part : Part) (h : part.tag = "error") :
    processPart profile provider acc part = acc := by
  simp [processPart, h, toolEventTags]

theorem foldl_processPart_filter_ne (profile provider tag : String)
    (hinert : ∀ acc part, part.tag = tag → processPart profile provider acc part = acc)
    (parts : List Part) (acc : String × List ToolCallSpec) :
    (parts.filter fun p => p.tag ≠ tag).foldl (processPart profile provider) acc =
      parts.foldl (processPart profile provider) acc := by
  induction parts generalizing acc with
  | nil => rfl
  | cons p ps ih =>
    by_cases h : p.tag = tag
    · rw [List.filter_cons_of_neg (by simpa using h), List.foldl_cons,
        hinert acc p h]
      exact ih acc
    · rw [List.filter_cons_of_pos (by simpa using h), List.foldl_cons,
        List.foldl_cons]
      exact ih (processPart profile provider acc p)

/-- C4 (amended): `think` sub-events are discarded for both providers — the
coalescer output is unchanged when they are removed — and an
anthropic-shaped response never contains a `thinking`-typed content block. -/
theorem C4_think_discarded_for_both_providers (profile provider : String)
    (parts : List Part) :
    processResponseParts profile (parts.filter fun p => p.tag ≠ "think") provider =
      processResponseParts profile parts provider ∧
    (anthropicContent profile parts).all (fun b => !b.isThinking) = true := by
  constructor
  · exact foldl_processPart_filter_ne profile provider "think"
      (fun acc part h => processPart_think profile provider acc part h) parts _
  · rw [List.all_eq_true]
    intro b hb
    unfold anthropicContent at hb
    rcases List.mem_append.1 hb with h | h
    · split at h
      · simp at h
      · rw [List.mem_singleton] at h
        subst h
        rfl
    · obtain ⟨t, _, rfl⟩ := List.mem_map.1 h
      rfl

/-- C5 (amended): `error` sub-events are ignored by the coalescer — they
contribute neither assistant text nor tool calls and do not prevent the other
sub-events of the group from producing their tool calls; removing them leaves
the coalesced turn unchanged. -/
theorem C5_error_parts_are_ignored (profile provider : String)
    (parts : List Part) :
    processResponseParts profile (parts.filter fun p => p.tag ≠ "error") provider =
      processResponseParts profile parts provider := by
  exact foldl_processPart_filter_ne profile provider "error"
    (fun acc part h => processPart_error profile provider acc part h) parts _

/-- C6: the tool mapping is total and deterministic — it is a pure function
of the profile, event type and arguments; an event type absent from the
profile table maps to the generic `run_terminal_cmd` shell-command call whose
command string is built from the event name and the argument values, and an
event type present in the table (all entries of which are direct) maps to the
table name with the direct argument remap. -/
theorem C6_tool_mapping_total (profile evType : String) (args : Args) :
    (List.lookup evType (toolsMapping profile) = none →
      mapToolCall profile evType args =
        ⟨"run_terminal_cmd",
         [("command", evType ++ " " ++ joinVals args), ("cwd", ".")]⟩) ∧
    (∀ m, List.lookup evType (toolsMapping profile) = some m → m.direct = true →
      mapToolCall profile evType args = ⟨m.name, directMapArgs m.argsMap args⟩) := by
  constructor
  · intro h
    unfold mapToolCall
    rw [h]
  · intro m h hd
    unfold mapToolCall
    rw [h]
    simp [hd]

theorem C6_witness :
    mapToolCall "codex" "frobnicate" [("x", "1")] =
      ⟨"run_terminal_cmd", [("command", "frobnicate 1"), ("cwd", ".")]⟩ ∧
    mapToolCall "codex" "writeFile" [("path", "a"), ("text", "b")] =
      ⟨"write_file",
       directMapArgs [("path", "path"), ("content", "text")]
         [("path", "a"), ("text", "b")]⟩ :=
  ⟨(C6_tool_mapping_total "codex" "frobnicate" [("x", "1")]).1 (by decide),
   (C6_tool_mapping_total "codex" "writeFile" [("path", "a"), ("text", "b")]).2
     ⟨"write_file", true, [("path", "path"), ("content", "text")], []⟩
     (by decide) rfl⟩

theorem tag_mem_skip_not_resp (t : String) (h : t ∈ skipTags) :
    t ∉ responseTags ∧ t ≠ "llmResponse" := by
  fin_cases h <;> exact ⟨by decide, by decide⟩

theorem collectAux_cons (e : SEvent) (rest : List SEvent) :
    collectAux (e :: rest) =
      if e.tag ∈ skipTags then ((collectAux rest).1, (collectAux rest).2 + 1)
      else if e.tag ∈ responseTags then (partsOf e, 1)
      else if e.tag = "llmResponse" then (partsOfLlm e, 1)
      else ((collectAux rest).1, (collectAux rest).2 + 1) := by
  cases e <;> rfl

theorem collectAux_cons_produces (e : SEvent) (rest : List SEvent)
    (hwf : EventWF e) (h : ProducesResponse e) :
    collectAux (e :: rest) = (partsOf e, 1) := by
  have hskip : e.tag ∉ skipTags := by
    intro hs
    have h2 := tag_mem_skip_not_resp e.tag hs
    rcases h with h | h
    · exact h2.1 h
    · exact h2.2 h
  rw [collectAux_cons, if_neg hskip]
  rcases h with h | h
  · rw [if_pos h]
  · rw [if_neg, if_pos h]
    · cases e with
      | single p => exact absurd h hwf
      | llmResponse ps => rfl
    · rw [h]
      decide

theorem collectAux_cons_not_produces (e : SEvent) (rest : List SEvent)
    (h : ¬ ProducesResponse e) :
    collectAux (e :: rest) = ((collectAux rest).1, (collectAux rest).2 + 1) := by
  have h1 : e.tag ∉ responseTags := fun hr => h (Or.inl hr)
  have h2 : ¬ (e.tag = "llmResponse") := fun he => h (Or.inr he)
  rw [collectAux_cons]
  by_cases hs : e.tag ∈ skipTags
  · rw [if_pos hs]
  · rw [if_neg hs, if_neg h1, if_neg h2]

theorem collectAux_spec (l : List SEvent) (i : Nat)
    (hwf : ∀ e ∈ l, EventWF e) (hi : i < l.length)
    (hskip : ∀ j (hj : j < l.length), j < i →
      ¬ ProducesResponse (l.get ⟨j, hj⟩))
    (hp : ProducesResponse (l.get ⟨i, hi⟩)) :
    collectAux l = (partsOf (l.get ⟨i, hi⟩), i + 1) := by
  induction l generalizing i with
  | nil => exact absurd hi (by simp)
  | cons e rest ih =>
    cases i with
    | zero =>
      exact collectAux_cons_produces e rest (hwf e (List.mem_cons_self e rest)) hp
    | succ n =>
      have hne : ¬ ProducesResponse e := hskip 0 (Nat.succ_pos _) (Nat.succ_pos n)
      rw [collectAux_cons_not_produces e rest hne]
      have hr := ih n (fun x hx => hwf x (List.mem_cons_of_mem e hx))
        (Nat.lt_of_succ_lt_succ hi)
        (fun j hj hlt => hskip (j + 1) (Nat.succ_lt_succ hj) (Nat.succ_lt_succ hlt))
        hp
      rw [hr]
      rfl

theorem lookup_setCursor_ne (s : Sessions) (key : String) (c : Nat)
    (k2 : String) (h : k2 ≠ key) :
    List.lookup k2 (setCursor s key c) = List.lookup k2 s := by
  induction s with
  | nil => rfl
  | cons x t ih =>
    obtain ⟨a, b⟩ := x
    show List.lookup k2 ((if a = key then (a, c) else (a, b)) :: setCursor t key c) =
      List.lookup k2 ((a, b) :: t)
    by_cases ha : a = key
    · rw [if_pos ha]
      have hbeq : (k2 == a) = false :=
        beq_eq_false_iff_ne.2 fun he => h (he.trans ha)
      simp only [List.lookup, hbeq]
      exact ih
    · rw [if_neg ha]
      simp only [List.lookup]
      cases hbeq : (k2 == a) with
      | true => rfl
      | false => exact ih

/-- C3: the session registry creates a session lazily on first observation of
an API key with its cursor at 0; a request against a session whose cursor
precedes a response-generating event consumes the skippable events before it
plus that one event atomically (an `llmResponse` group yields all of its
sub-events in one cycle and the cursor lands right after the group); and a
request for one key leaves every other session untouched. -/
theorem C3_session_registry (timeline : List SEvent) (sessions : Sessions)
    (key : String) (c i : Nat)
    (hwf : ∀ e ∈ timeline, EventWF e)
    (hc : List.lookup key sessions = some c)
    (hi : i < timeline.length) (hci : c ≤ i)
    (hskip : ∀ j (hj : j < timeline.length), c ≤ j → j < i →
      ¬ ProducesResponse (timeline.get ⟨j, hj⟩))
    (hp : ProducesResponse (timeline.get ⟨i, hi⟩)) :
    handleRequest timeline sessions key =
      (setCursor sessions key (i + 1), partsOf (timeline.get ⟨i, hi⟩)) ∧
    (∀ s2 : Sessions, List.lookup key s2 = none →
      getSession s2 key = ((key, 0) :: s2, 0)) ∧
    (∀ k2, k2 ≠ key →
      List.lookup k2 (handleRequest timeline sessions key).1 =
        List.lookup k2 sessions) := by
  have hdroplen : i - c < (timeline.drop c).length := by
    rw [List.length_drop]
    omega
  have hgetdrop : ∀ (j : Nat) (hj : j < (timeline.drop c).length),
      (timeline.drop c).get ⟨j, hj⟩ =
        timeline.get ⟨c + j, by rw [List.length_drop] at hj; omega⟩ := by
    intro j hj
    simp only [List.get_eq_getElem]
    rw [List.getElem_drop']
  have hcollect : collectAux (timeline.drop c) =
      (partsOf (timeline.get ⟨i, hi⟩), (i - c) + 1) := by
    have hs2 : ∀ j (hj : j < (timeline.drop c).length), j < i - c →
        ¬ ProducesResponse ((timeline.drop c).get ⟨j, hj⟩) := by
      intro j hj hlt
      rw [hgetdrop j hj]
      exact hskip (c + j) _ (Nat.le_add_right c j) (by omega)
    have hp2 : ProducesResponse ((timeline.drop c).get ⟨i - c, hdroplen⟩) := by
      rw [hgetdrop (i - c) hdroplen]
      have : c + (i - c) = i := by omega
      simp only [this]
      exact hp
    have := collectAux_spec (timeline.drop c) (i - c)
      (fun e he => hwf e (List.mem_of_mem_drop he)) hdroplen hs2 hp2
    rw [this, hgetdrop (i - c) hdroplen]
    have : c + (i - c) = i := by omega
    simp only [this]
  have hget : getSession sessions key = (sessions, c) := by
    unfold getSession
    rw [hc]
  have hmain : handleRequest timeline sessions key =
      (setCursor sessions key (i + 1), partsOf (timeline.get ⟨i, hi⟩)) := by
    unfold handleRequest
    rw [hget]
    simp only [hcollect]
    have : c + (i - c + 1) = i + 1 := by omega
    rw [this]
  refine ⟨hmain, ?_, ?_⟩
  · intro s2 h2
    unfold getSession
    rw [h2]
  · intro k2 hk2
    rw [hmain]
    exact lookup_setCursor_ne sessions key (i + 1) k2 hk2

theorem C3_witness :
    handleRequest
        [.single ⟨"advanceMs", .unitP⟩, .single ⟨"assistant", .pairs [(0, "hi")]⟩]
        [("k", 0)] "k" =
      ([("k", 2)], [⟨"assistant", .pairs [(0, "hi")]⟩]) ∧
    getSession [] "k" = ([("k", 0)], 0) ∧
    List.lookup "other"
        (handleRequest
          [.single ⟨"advanceMs", .unitP⟩, .single ⟨"assistant", .pairs [(0, "hi")]⟩]
          [("k", 0)] "k").1 =
      List.lookup "other" [("k", 0)] := by
  have h := C3_session_registry
    [.single ⟨"advanceMs", .unitP⟩, .single ⟨"assistant", .pairs [(0, "hi")]⟩]
    [("k", 0)] "k" 0 1 (by decide) (by decide) (by decide) (by decide)
    (by decide) (by decide)
  refine ⟨?_, h.2.1 [] (by decide), h.2.2 "other" (by decide)⟩
  rw [h.1]
  decide

/-- C8 (amended): for an unknown tool call name the raw request body is
persisted to `agent-requests/(profile)/(version)/request.json` in both modes
(in strict mode the capture happens just before the error is raised, and the
request is rejected); for an unknown tool definition the body is persisted
only in default mode — in strict mode `_validate_tool_definitions` raises
without capturing anything. -/
theorem C8_unknown_tool_validation (profile version name body : String)
    (fs : FS) (hname : name ∉ validTools profile) (hbody : body ≠ "") :
    validateTools true profile version [some name] body fs =
      (saveAgentRequest fs profile version body,
       some ("Unknown tool " ++ name ++ " for profile " ++ profile)) ∧
    validateTools false profile version [some name] body fs =
      (saveAgentRequest fs profile version body, none) ∧
    validateToolDefinitions true profile version [some name] body fs =
      (fs, some ("Strict tools validation failed: " ++ name)) ∧
    validateToolDefinitions false profile version [some name] body fs =
      (saveAgentRequest fs profile version body, none) ∧
    fsFind (saveAgentRequest fs profile version body)
      ["agent-requests", profile, version, "request.json"] = some body := by
  refine ⟨?_, ?_, ?_, ?_, ?_⟩
  · simp [validateTools, hname, hbody]
  · simp [validateTools, hname, hbody]
  · simp [validateToolDefinitions, hname]
  · simp [validateToolDefinitions, hname]
  · simp [saveAgentRequest, fsInsert, fsFind]

theorem C8_witness :
    validateTools true "claude" "2.0.5" [some "FooBar"] "B" [] =
      (saveAgentRequest [] "claude" "2.0.5" "B",
       some "Unknown tool FooBar for profile claude") ∧
    validateTools false "claude" "2.0.5" [some "FooBar"] "B" [] =
      (saveAgentRequest [] "claude" "2.0.5" "B", none) ∧
    validateToolDefinitions true "claude" "2.0.5" [some "FooBar"] "B" [] =
      ([], some "Strict tools validation failed: FooBar") ∧
    validateToolDefinitions false "claude" "2.0.5" [some "FooBar"] "B" [] =
      (saveAgentRequest [] "claude" "2.0.5" "B", none) ∧
    fsFind (saveAgentRequest [] "claude" "2.0.5" "B")
      ["agent-requests", "claude", "2.0.5", "request.json"] = some "B" :=
  C8_unknown_tool_validation "claude" "2.0.5" "FooBar" "B" []
    (by decide) (by decide)

theorem normStep_noSpecial (acc : List String) (comp : String)
    (h : NoSpecial acc) : NoSpecial (normStep true acc comp) := by
  unfold normStep
  split
  · exact h
  · split
    · rename_i h1 h2
      intro c hc
      rcases List.mem_append.1 hc with hc | hc
      · exact h c hc
      · rw [List.mem_singleton] at hc
        subst hc
        push_neg at h1
        refine ⟨h1.1, h1.2, ?_⟩
        rcases h2 with h2 | h2 | h2
        · exact h2
        · exact absurd h2.1 (by decide)
        · exact absurd rfl
            (h ".." (List.mem_of_mem_getLast? h2.2)).2.2
    · intro c hc
      exact h c (List.mem_of_mem_dropLast hc)

theorem normComps_noSpecial (comps : List String) :
    NoSpecial (normComps true comps) := by
  unfold normComps
  suffices h : ∀ acc, NoSpecial acc →
      NoSpecial (List.foldl (normStep true) acc comps) by
    refine h [] ?_
    intro c hc
    exact absurd hc (List.not_mem_nil c)
  induction comps with
  | nil => exact fun acc h => h
  | cons c cs ih =>
    intro acc h
    exact ih _ (normStep_noSpecial acc c h)

theorem commonStem_pre_left (a b : List String) : commonStem a b <+: a := by
  induction a generalizing b with
  | nil => cases b <;> exact List.nil_prefix
  | cons x xs ih =>
    cases b with
    | nil => exact List.nil_prefix
    | cons y ys =>
      unfold commonStem
      split
      · exact (List.prefix_cons_inj x).mpr (ih ys)
      · exact List.nil_prefix

theorem commonStem_pre_right (a b : List String) : commonStem a b <+: b := by
  induction a generalizing b with
  | nil => cases b <;> exact List.nil_prefix
  | cons x xs ih =>
    cases b with
    | nil => exact List.nil_prefix
    | cons y ys =>
      unfold commonStem
      split
      · rename_i he
        subst he
        exact (List.prefix_cons_inj x).mpr (ih ys)
      · exact List.nil_prefix

theorem commonStem_self_app (l m : List String) : commonStem l (l ++ m) = l := by
  induction l with
  | nil => cases m <;> rfl
  | cons x xs ih =>
    rw [List.cons_append]
    show (if x = x then x :: commonStem xs (xs ++ m) else []) = x :: xs
    rw [if_pos rfl, ih]

theorem joinSlash_len_lt (l : List String) (c : String) (t : List String)
    (hc : c ≠ "") :
    (joinSlash l).length < (joinSlash (l ++ c :: t)).length := by
  have hdata : c.data ≠ [] := by
    intro hd
    refine hc ?_
    cases c
    simp_all
  induction l with
  | nil =>
    cases t with
    | nil => simpa [joinSlash] using List.length_pos.2 hdata
    | cons u us =>
      simp only [List.nil_append, joinSlash, List.length_append,
        List.length_cons, List.length_nil]
      omega
  | cons a l2 ih =>
    cases l2 with
    | nil =>
      simp only [List.cons_append, List.nil_append, joinSlash,
        List.length_append, List.length_cons]
      omega
    | cons b l3 =>
      simp only [List.cons_append, List.append_eq, joinSlash,
        List.length_append, List.length_cons] at ih ⊢
      omega

theorem renderP_abs (l : List String) : renderP ⟨true, l⟩ = '/' :: joinSlash l := rfl

theorem guard_forces_under (root q : List String) (hclean : NoSpecial root)
    (hg : pyStartsWith (renderP ⟨true, commonStem root q⟩)
      (renderP ⟨true, root⟩) = true) :
    root <+: q := by
  have hpre := commonStem_pre_left root q
  have heq : commonStem root q = root := by
    by_contra hne
    obtain ⟨tail, htail⟩ := hpre
    cases tail with
    | nil => exact hne (by simpa using htail)
    | cons c t =>
      have hcmem : c ∈ root := by
        rw [← htail]
        exact List.mem_append_right _ (List.mem_cons_self c t)
      have hlt : (joinSlash (commonStem root q)).length <
          (joinSlash root).length := by
        conv_rhs => rw [← htail]
        exact joinSlash_len_lt _ c t (hclean c hcmem).1
      unfold pyStartsWith at hg
      have hp2 := List.isPrefixOf_iff_prefix.mp hg
      have hle := hp2.length_le
      rw [renderP_abs, renderP_abs] at hle
      simp only [List.length_cons] at hle
      omega
  rw [← heq]
  exact commonStem_pre_right root q

theorem safeJoin_sound (cwd root path : PyPath) (habs : root.absolute = true) :
    (∀ q, safeJoin cwd root path = .ok q →
      q.absolute = true ∧ normComps true root.comps <+: q.comps) ∧
    (∀ e, safeJoin cwd root path = .error e → e.isToolError = true) := by
  have hjabs : (joinP root path).absolute = true := by
    unfold joinP
    split
    · rename_i h
      cases path
      simp_all
    · exact habs
  have hnabs : (normpath (joinP root path)).absolute = true := hjabs
  have hr1 : abspathP cwd root = ⟨true, normComps true root.comps⟩ := by
    cases root with
    | mk ab comps =>
      simp only at habs
      subst habs
      simp [abspathP, joinP, normpath]
  unfold safeJoin
  rw [hr1]
  simp only [hnabs]
  rw [if_neg (by simp [hnabs])]
  split
  · rename_i hguard
    constructor
    · intro q hq
      cases hq
      exact ⟨hnabs, guard_forces_under _ _ (normComps_noSpecial root.comps)
        (by
          have hx : (normpath (joinP root path)).comps =
              normComps (joinP root path).absolute (joinP root path).comps := rfl
          exact hguard)⟩
    · intro e he
      cases he
  · constructor
    · intro q hq
      cases hq
    · intro e he
      cases he
      rfl

theorem lookup_filter_ne (fs : FS) (p q : List String) (h : q ≠ p) :
    List.lookup q (fs.filter fun kv => kv.1 ≠ p) = List.lookup q fs := by
  induction fs with
  | nil => rfl
  | cons x t ih =>
    obtain ⟨a, b⟩ := x
    by_cases ha : a = p
    · subst ha
      rw [List.filter_cons_of_neg (by simp)]
      have hbeq : (q == a) = false := beq_eq_false_iff_ne.2 h
      simp only [List.lookup, hbeq]
      exact ih
    · rw [List.filter_cons_of_pos (by simpa using ha)]
      simp only [List.lookup]
      cases hbeq : (q == a) with
      | true => rfl
      | false => exact ih

theorem fsFind_insert_ne (fs : FS) (p : List String) (v : String)
    (q : List String) (h : q ≠ p) :
    fsFind (fsInsert fs p v) q = fsFind fs q := by
  unfold fsFind fsInsert
  have hbeq : (q == p) = false := beq_eq_false_iff_ne.2 h
  simp only [List.lookup, hbeq]
  exact lookup_filter_ne fs p q h

/-- C10: every file-system tool resolves its target by joining it to the
workspace root and normalizing; a path that escapes an absolute workspace
root is rejected with `ToolError` before any file is touched, and a path
that resolves stays under the root, so the tools never write outside the
workspace (for `runCmd` this covers the resolution of its working
directory). -/
theorem C10_workspace_confinement
    (subn : String → String → Nat → String → String)
    (cwd ws p : PyPath) (fs : FS) (text old new : String) (expr : String)
    (inplace repl : Bool) (habs : ws.absolute = true) :
    (∀ q, safeJoin cwd ws p = .ok q →
      q.absolute = true ∧ normComps true ws.comps <+: q.comps) ∧
    (∀ e, safeJoin cwd ws p = .error e → e.isToolError = true) ∧
    (∀ e, safeJoin cwd ws p = .error e → read_file fs cwd ws p = .error e) ∧
    (∀ e, safeJoin cwd ws p = .error e →
      write_file fs cwd ws p text = .error e) ∧
    (∀ fs1 r, write_file fs cwd ws p text = .ok (fs1, r) →
      ∀ q2, ¬ (normComps true ws.comps <+: q2) → fsFind fs1 q2 = fsFind fs q2) ∧
    (∀ e, safeJoin cwd ws p = .error e → writeFile fs cwd ws p text = .error e) ∧
    (∀ fs1 r, writeFile fs cwd ws p text = .ok (fs1, r) →
      ∀ q2, ¬ (normComps true ws.comps <+: q2) → fsFind fs1 q2 = fsFind fs q2) ∧
    (∀ e, safeJoin cwd ws p = .error e →
      append_file fs cwd ws p text = .error e) ∧
    (∀ fs1 r, append_file fs cwd ws p text = .ok (fs1, r) →
      ∀ q2, ¬ (normComps true ws.comps <+: q2) → fsFind fs1 q2 = fsFind fs q2) ∧
    (∀ e, safeJoin cwd ws p = .error e →
      editFile fs cwd ws p old new repl = .error e) ∧
    (∀ fs1 r, editFile fs cwd ws p old new repl = .ok (fs1, r) →
      ∀ q2, ¬ (normComps true ws.comps <+: q2) → fsFind fs1 q2 = fsFind fs q2) ∧
    (∀ e, safeJoin cwd ws p = .error e → list_dir fs cwd ws p = .error e) ∧
    (∀ e, safeJoin cwd ws p = .error e →
      sed subn fs cwd ws p expr inplace = .error e) ∧
    (∀ fs1 r, sed subn fs cwd ws p expr inplace = .ok (fs1, r) →
      ∀ q2, ¬ (normComps true ws.comps <+: q2) → fsFind fs1 q2 = fsFind fs q2) ∧
    (∀ q, runCmdResolveCwd cwd ws p = .ok q →
      q.absolute = true ∧ normComps true ws.comps <+: q.comps) ∧
    (∀ e, runCmdResolveCwd cwd ws p = .error e → e.isToolError = true) := by
  have hsound := safeJoin_sound cwd ws p habs
  have hconf : ∀ qc v, normComps true ws.comps <+: qc →
      ∀ q2, ¬ (normComps true ws.comps <+: q2) →
      fsFind (fsInsert fs qc v) q2 = fsFind fs q2 := by
    intro qc v hunder q2 hq2
    exact fsFind_insert_ne fs qc v q2 (fun he => hq2 (he ▸ hunder))
  refine ⟨hsound.1, hsound.2, ?_, ?_, ?_, ?_, ?_, ?_, ?_, ?_, ?_, ?_, ?_, ?_,
    hsound.1, hsound.2⟩
  · intro e he
    unfold read_file
    rw [he]
  · intro e he
    unfold write_file
    rw [he]
  · intro fs1 r hok
    unfold write_file at hok
    cases hsj : safeJoin cwd ws p with
    | error e0 =>
      rw [hsj] at hok
      simp at hok
    | ok q0 =>
      rw [hsj] at hok
      cases hok
      exact hconf q0.comps _ (hsound.1 q0 hsj).2
  · intro e he
    unfold writeFile
    rw [he]
  · intro fs1 r hok
    unfold writeFile at hok
    cases hsj : safeJoin cwd ws p with
    | error e0 =>
      rw [hsj] at hok
      simp at hok
    | ok q0 =>
      rw [hsj] at hok
      cases hok
      exact hconf q0.comps _ (hsound.1 q0 hsj).2
  · intro e he
    unfold append_file
    rw [he]
  · intro fs1 r hok
    unfold append_file at hok
    cases hsj : safeJoin cwd ws p with
    | error e0 =>
      rw [hsj] at hok
      simp at hok
    | ok q0 =>
      rw [hsj] at hok
      cases hok
      exact hconf q0.comps _ (hsound.1 q0 hsj).2
  · intro e he
    unfold editFile
    rw [he]
  · intro fs1 r hok
    unfold editFile at hok
    cases hsj : safeJoin cwd ws p with
    | error e0 =>
      rw [hsj] at hok
      simp at hok
    | ok q0 =>
      rw [hsj] at hok
      simp only [] at hok
      cases hf : fsFind fs q0.comps with
      | none =>
        rw [hf] at hok
        simp at hok
      | some data =>
        rw [hf] at hok
        cases hok
        exact hconf q0.comps _ (hsound.1 q0 hsj).2
  · intro e he
    unfold list_dir
    rw [he]
  · intro e he
    unfold sed
    rw [he]
  · intro fs1 r hok
    unfold sed at hok
    cases hsj : safeJoin cwd ws p with
    | error e0 =>
      rw [hsj] at hok
      simp at hok
    | ok q0 =>
      rw [hsj] at hok
      simp only [] at hok
      split at hok
      · simp at hok
      · split at hok
        · simp at hok
        · cases hf : fsFind fs q0.comps with
          | none =>
            rw [hf] at hok
            simp at hok
          | some data =>
            rw [hf] at hok
            cases hi : inplace with
            | true =>
              rw [hi] at hok
              simp only [if_true] at hok
              cases hok
              exact hconf q0.comps _ (hsound.1 q0 hsj).2
            | false =>
              rw [hi] at hok
              simp only [Bool.false_eq_true, if_false] at hok
              cases hok
              intro q2 _
              rfl

theorem fsFind_insert_self (fs : FS) (p : List String) (v : String) :
    fsFind (fsInsert fs p v) p = some v := by
  unfold fsFind fsInsert
  simp [List.lookup]

theorem safeJoin_app_normal (cwd ws : PyPath) (c : String)
    (habs : ws.absolute = true) (hn : normComps true ws.comps = ws.comps)
    (hc1 : c ≠ "") (hc2 : c ≠ ".") (hc3 : c ≠ "..") :
    safeJoin cwd ws ⟨false, [c]⟩ = .ok ⟨true, ws.comps ++ [c]⟩ := by
  cases ws with
  | mk ab comps =>
    simp only at habs hn
    subst habs
    have hjoin : joinP ⟨true, comps⟩ ⟨false, [c]⟩ = ⟨true, comps ++ [c]⟩ := rfl
    have hnorm : normpath ⟨true, comps ++ [c]⟩ = ⟨true, comps ++ [c]⟩ := by
      unfold normpath normComps
      simp only
      rw [List.foldl_append]
      have hbase : List.foldl (normStep true) [] comps = comps := hn
      rw [hbase]
      show (⟨true, normStep true comps c⟩ : PyPath) = ⟨true, comps ++ [c]⟩
      unfold normStep
      rw [if_neg (by simp [hc1, hc2]), if_pos (Or.inl hc3)]
    have hr1 : abspathP cwd ⟨true, comps⟩ = ⟨true, comps⟩ := by
      unfold abspathP joinP
      rw [if_pos rfl]
      unfold normpath
      simp only
      rw [show normComps true comps = comps from hn]
    have hself : pyStartsWith (renderP ⟨true, comps⟩) (renderP ⟨true, comps⟩)
        = true := List.isPrefixOf_iff_prefix.mpr (List.prefix_refl _)
    unfold safeJoin
    rw [hjoin, hnorm, hr1]
    simp only
    rw [if_neg (by simp)]
    rw [commonStem_self_app]
    rw [if_pos hself]

/-- C7: the scenario step `agentToolUse` with tool `writeFile` and args
`path=hello.py, text=print(1)` produces, under profile `codex`, a tool call
named `write_file` whose args rekey `path` via the direct `args_map` and pass
the unmapped `text` key through unchanged; and executing the same step
through the direct-execution runner leaves the workspace containing
`hello.py` with exactly the content `print(1)`. -/
theorem C7_writeFile_example (subn : String → String → Nat → String → String)
    (cwd ws : PyPath) (fs : FS) (habs : ws.absolute = true)
    (hn : normComps true ws.comps = ws.comps) :
    processResponseParts "codex"
        [⟨"agentToolUse",
          .toolUse "writeFile" [("path", "hello.py"), ("text", "print(1)")]⟩]
        "openai"
      = ("", [⟨"write_file", [("path", "hello.py"), ("text", "print(1)")]⟩]) ∧
    (openaiMessage "codex"
        [⟨"agentToolUse",
          .toolUse "writeFile" [("path", "hello.py"), ("text", "print(1)")]⟩]).toolCalls
      = some [⟨"write_file", [("path", "hello.py"), ("text", "print(1)")]⟩] ∧
    runRealtimeCodex subn cwd ws
        [RStep.agentToolUse
          ⟨"writeFile", [("path", "hello.py"), ("text", "print(1)")], [], "ok"⟩] fs
      = .ok ([Rec.turnContext,
              .functionCall "writeFile" [("path", "hello.py"), ("text", "print(1)")],
              .agentMessage "tool writeFile ok"],
             fsInsert fs (ws.comps ++ ["hello.py"]) "print(1)") ∧
    fsFind (fsInsert fs (ws.comps ++ ["hello.py"]) "print(1)")
        (ws.comps ++ ["hello.py"])
      = some "print(1)" := by
  have hp : parsePath "hello.py" = ⟨false, ["hello.py"]⟩ := by decide
  have hsafe := safeJoin_app_normal cwd ws "hello.py" habs hn
    (by decide) (by decide) (by decide)
  have hwf : writeFile fs cwd ws (parsePath "hello.py") "print(1)" =
      .ok (fsInsert fs (ws.comps ++ ["hello.py"]) "print(1)", 8) := by
    unfold writeFile
    rw [hp, hsafe]
    rfl
  have hct : callTool subn cwd ws "writeFile"
      [("path", "hello.py"), ("text", "print(1)")] fs =
      .ok (fsInsert fs (ws.comps ++ ["hello.py"]) "print(1)") := by
    show Except.bind (writeFile fs cwd ws (parsePath "hello.py") "print(1)")
        (fun r => Except.ok r.1) =
      Except.ok (fsInsert fs (ws.comps ++ ["hello.py"]) "print(1)")
    rw [hwf]
    rfl
  have hexec : execToolUse subn cwd ws
      ⟨"writeFile", [("path", "hello.py"), ("text", "print(1)")], [], "ok"⟩ fs =
      .ok ([.functionCall "writeFile" [("path", "hello.py"), ("text", "print(1)")],
            .agentMessage "tool writeFile ok"],
           fsInsert fs (ws.comps ++ ["hello.py"]) "print(1)") := by
    unfold execToolUse
    rw [hct]
    rfl
  refine ⟨by decide, by decide, ?_, fsFind_insert_self fs _ "print(1)"⟩
  unfold runRealtimeCodex
  simp only [runEvents, realtimeExecStep]
  rw [hexec]
  rfl

theorem C7_witness :
    runRealtimeCodex (fun _ _ _ d => d) ⟨true, []⟩ ⟨true, ["tmp", "ws"]⟩
        [RStep.agentToolUse
          ⟨"writeFile", [("path", "hello.py"), ("text", "print(1)")], [], "ok"⟩]
        [] =
      .ok ([Rec.turnContext,
            .functionCall "writeFile" [("path", "hello.py"), ("text", "print(1)")],
            .agentMessage "tool writeFile ok"],
           fsInsert [] (["tmp", "ws"] ++ ["hello.py"]) "print(1)") ∧
    fsFind (fsInsert [] (["tmp", "ws"] ++ ["hello.py"]) "print(1)")
        (["tmp", "ws"] ++ ["hello.py"]) = some "print(1)" :=
  have h := C7_writeFile_example (fun _ _ _ d => d) ⟨true, []⟩
    ⟨true, ["tmp", "ws"]⟩ [] rfl (by decide)
  ⟨h.2.2.1, h.2.2.2⟩

theorem C10_witness :
    (safeJoin ⟨true, []⟩ ⟨true, ["work"]⟩ ⟨false, ["..", "etc", "passwd"]⟩).toOption
      = none ∧
    (∀ e, safeJoin ⟨true, []⟩ ⟨true, ["work"]⟩ ⟨false, ["..", "etc", "passwd"]⟩
      = .error e → e.isToolError = true) ∧
    (∀ q, safeJoin ⟨true, []⟩ ⟨true, ["work"]⟩ ⟨false, ["hello.py"]⟩ = .ok q →
      q.absolute = true ∧
        normComps true ["work"] <+: q.comps) :=
  ⟨by decide,
   (C10_workspace_confinement (fun _ _ _ d => d) ⟨true, []⟩ ⟨true, ["work"]⟩
     ⟨false, ["..", "etc", "passwd"]⟩ [] "" "" "" "" false false rfl).2.1,
   (C10_workspace_confinement (fun _ _ _ d => d) ⟨true, []⟩ ⟨true, ["work"]⟩
     ⟨false, ["hello.py"]⟩ [] "" "" "" "" false false rfl).1⟩

end MockAgent
